import Mathlib

/-!
Shallow embedding of `server_ws.py`, a minimal password-protected WebSocket
chat server, together with proofs about its registry, broadcast, command and
session-handling behaviour.

Modelling conventions:
* A websocket handle is a `Nat` (distinct connections get distinct numbers;
  Python `is`-identity on websocket objects becomes `Nat` equality).
* The global mutable state (`clients` dict, which sockets are closed, and the
  log of delivered messages / close calls) is a `St` record; Python coroutines
  become functions `St → Option α × St`, where the `Option` is `none` when an
  uncaught Python exception escapes (state changes made before the exception
  persist, as they do in Python).
* The `asyncio.Lock` makes every critical section atomic; since we model one
  interleaving-free execution of a coroutine body, lock acquisition itself is
  a no-op and atomic registry operations (`registerClient`, `deregisterClient`)
  are single Lean functions.
* Inbound bytes are pre-classified: `Raw.notJson` is an input on which
  `json.loads` raises, `Raw.val v` an input parsing to the JSON value `v`.
* Python `str` values are Lean `String`s; `str.strip`, `str.split(" ", 2)`,
  `str.startswith` and slicing `[:MAX_MSG]` are modelled character-exactly by
  `pyStrip`, `pySplit2`, `pyStartsWith`, `pyTruncate`.
-/

/-- A parsed JSON value, as produced by `json.loads`. -/
inductive JVal where
  | jnull
  | jbool (b : Bool)
  | jnum (n : Int)
  | jstr (s : String)
  | jarr (elems : List JVal)
  | jobj (fields : List (String × JVal))

/-- Dictionary lookup `d.get(k)`: for duplicate keys `json.loads` keeps the
last binding, so later fields win. -/
def jget : List (String × JVal) → String → Option JVal
  | [], _ => none
  | (k, v) :: rest, key =>
    match jget rest key with
    | some w => some w
    | none => if k = key then some v else none

/-- Membership test `k in d` on a parsed JSON object. -/
def hasField (fields : List (String × JVal)) (k : String) : Bool :=
  (jget fields k).isSome

/-- Python truthiness of `d.get(k)`: `None` (missing key), `False`, `0`, `""`,
`[]` and `{}` are falsy, everything else truthy. -/
def truthy : Option JVal → Bool
  | none => false
  | some JVal.jnull => false
  | some (JVal.jbool b) => b
  | some (JVal.jnum n) => decide (n ≠ 0)
  | some (JVal.jstr s) => decide (s ≠ "")
  | some (JVal.jarr l) => !l.isEmpty
  | some (JVal.jobj l) => !l.isEmpty

/-- Python `v == s` for an optional JSON value against a string literal:
true exactly when the value is present and is that string. -/
def oeqStr (v : Option JVal) (s : String) : Bool :=
  match v with
  | some (JVal.jstr t) => decide (t = s)
  | _ => false

/-- Outbound application messages (the dicts passed to `send_json`).
The `timestamp` field of chat/private packets is the `now_ts()` string. -/
inductive Packet where
  | authOk
  | authFail (reason : String)
  | chatMsg (sender text timestamp : String)
  | privMsg (sender text timestamp : String)
  | system (message : String)
  | users (names : List String)
  deriving DecidableEq, Repr

/-- Observable events of a run: a successfully delivered packet on a handle
(`ws.send` returned), or a `ws.close()` call. A send that raises produces no
event. -/
inductive Event where
  | sent (h : Nat) (p : Packet)
  | closedConn (h : Nat)
  deriving DecidableEq, Repr

/-- Global server state: the `clients` dict as an insertion-ordered
association list (Python dicts preserve insertion order), the set of closed
handles, and the event log. -/
structure St where
  clients : List (String × Nat)
  closedConns : List Nat
  events : List Event
  deriving DecidableEq, Repr

/-- A Python coroutine body: state transformer that may raise
(`none` = uncaught exception; state mutations made so far persist). -/
def M (α : Type) : Type := St → Option α × St

/-- Return. -/
def pureM {α : Type} (a : α) : M α := fun s => (some a, s)

/-- Sequencing: an exception short-circuits. -/
def bindM {α β : Type} (x : M α) (f : α → M β) : M β := fun s =>
  match x s with
  | (none, s') => (none, s')
  | (some a, s') => f a s'

/-- Raise an exception (uncaught at this point). -/
def raiseM {α : Type} : M α := fun s => (none, s)

/-- A bare `try: body except: handler` that swallows every exception class. -/
def tryCatchAll {α : Type} (body : M α) (handler : M α) : M α := fun s =>
  match body s with
  | (none, s') => handler s'
  | (some a, s') => (some a, s')

/-- Read the global state (e.g. the `clients` dict). -/
def getSt : M St := fun s => (some s, s)

/-- Overwrite the `clients` dict. -/
def setClients (c : List (String × Nat)) : M Unit := fun s =>
  (some (), { s with clients := c })

/-- The configured room password (`CHAT_PASSWORD = "letmein"`). -/
def CHAT_PASSWORD : String := "letmein"

/-- The message-length bound (`MAX_MSG = 10_000`). -/
def MAX_MSG : Nat := 10000

/-- First value for a key in an association list: the dict access
`clients.get(u)` / `clients[u]` (keys are unique, so first = only). -/
def findHandle (u : String) : List (String × Nat) → Option Nat
  | [] => none
  | p :: rest => if p.1 = u then some p.2 else findHandle u rest

/-- The usernames of a registry, in insertion order (`list(clients.keys())`). -/
def keysOf (c : List (String × Nat)) : List String :=
  c.map Prod.fst

/-- Raw `ws.send`: raises when the handle's transport is failing or the
socket is already closed; otherwise the packet is delivered and logged. -/
def sendRaw (fails : Nat → Bool) (h : Nat) (p : Packet) : M Unit := fun s =>
  if fails h = true ∨ h ∈ s.closedConns then (none, s)
  else (some (), { s with events := s.events ++ [Event.sent h p] })

/-- `send_json(ws, obj)` (lines 32-36): `ws.send` wrapped in a bare
`try/except: pass`, so it never raises. -/
def send_json (fails : Nat → Bool) (h : Nat) (p : Packet) : M Unit :=
  tryCatchAll (sendRaw fails h p) (pureM ())

/-- `ws.close()`: marks the handle closed and logs the close. Closing an
already-closed socket is a no-op that still returns normally. -/
def closeWs (h : Nat) : M Unit := fun s =>
  (some (), { s with closedConns := h :: s.closedConns,
                     events := s.events ++ [Event.closedConn h] })

/-- `del clients[user]`: raises `KeyError` when absent, otherwise removes the
entry (with unique keys, removing all bindings of the key equals dict `del`). -/
def delKey (u : String) : M Unit := fun s =>
  if (findHandle u s.clients).isSome then
    (some (), { s with clients := s.clients.filter (fun p => decide (p.1 ≠ u)) })
  else (none, s)

/-- Loop body of `broadcast_packet` (lines 40-47): iterate the snapshot of
`clients.items()`; skip the excluded user; `try: await send_json(...)
except: del clients[user]` — note `send_json` never raises, so the `del`
branch is unreachable. -/
def bcastLoop (fails : Nat → Bool) (pkt : Packet) (excl : Option String) :
    List (String × Nat) → M Unit
  | [] => pureM ()
  | (u, h) :: rest =>
    bindM
      (if excl = some u then pureM ()
       else tryCatchAll (send_json fails h pkt) (delKey u))
      (fun _ => bcastLoop fails pkt excl rest)

/-- `broadcast_packet(packet, exclude_username)` (lines 38-47): take the
snapshot `list(clients.items())` under the lock and fan out. -/
def broadcast_packet (fails : Nat → Bool) (pkt : Packet) (excl : Option String) :
    M Unit :=
  bindM getSt (fun s => bcastLoop fails pkt excl s.clients)

/-- Characters `str.strip()` removes (ASCII whitespace suffices here). -/
def wsChar (c : Char) : Bool := c.isWhitespace

/-- Python `text.strip()`: drop whitespace from both ends. -/
def pyStrip (s : String) : String :=
  String.mk (((s.data.dropWhile wsChar).reverse.dropWhile wsChar).reverse)

/-- Split a character list at the first space, Python `split(" ", _)` step:
returns the part before the first `' '` and, when a space was found, the
remainder after it. -/
def splitFirstSpace : List Char → List Char × Option (List Char)
  | [] => ([], none)
  | c :: cs =>
    if c = ' ' then ([], some cs)
    else
      match splitFirstSpace cs with
      | (a, r) => (c :: a, r)

/-- Python `l.split(" ", 2)`: at most two splits on the exact character
`' '`; the third part is the remainder verbatim. -/
def pySplit2 (l : String) : List String :=
  match splitFirstSpace l.data with
  | (p1, none) => [String.mk p1]
  | (p1, some r) =>
    match splitFirstSpace r with
    | (p2, none) => [String.mk p1, String.mk p2]
    | (p2, some r') => [String.mk p1, String.mk p2, String.mk r']

/-- Character-list prefix test. -/
def isPrefixCh : List Char → List Char → Bool
  | [], _ => true
  | _ :: _, [] => false
  | c :: cs, d :: ds => decide (c = d) && isPrefixCh cs ds

/-- Python `s.startswith(p)`. -/
def pyStartsWith (s p : String) : Bool := isPrefixCh p.data s.data

/-- Python slicing `s[:MAX_MSG]` on a string. -/
def pyTruncate (s : String) : String := String.mk (s.data.take MAX_MSG)

/-- ASCII apostrophe, used in the target-not-found message text. -/
def quoteCh : String := String.singleton (Char.ofNat 39)

/-- `handle_command(username, text, ws)` (lines 49-83). Returns `True` when
the text was a recognized command. `ts` is the `now_ts()` string. -/
def handle_command (fails : Nat → Bool) (username text : String) (ws : Nat)
    (ts : String) : M Bool :=
  let l := pyStrip text
  if l = "/users" then
    bindM getSt (fun s =>
      bindM (send_json fails ws (Packet.users (keysOf s.clients)))
        (fun _ => pureM true))
  else if pyStartsWith l "/msg " = true then
    let parts := pySplit2 l
    if parts.length < 3 then
      bindM (send_json fails ws (Packet.system "Usage: /msg <user> <message>"))
        (fun _ => pureM true)
    else
      match parts with
      | _ :: to_user :: message :: _ =>
        bindM getSt (fun s =>
          match findHandle to_user s.clients with
          | none =>
            bindM (send_json fails ws (Packet.system
                ("User " ++ quoteCh ++ to_user ++ quoteCh ++ " not found.")))
              (fun _ => pureM true)
          | some target =>
            bindM (send_json fails target (Packet.privMsg username message ts))
              (fun _ =>
                bindM (send_json fails ws (Packet.system "Private message sent."))
                  (fun _ => pureM true)))
      | _ => raiseM
  else if l = "/quit" then
    bindM (send_json fails ws (Packet.system "Goodbye."))
      (fun _ => bindM (closeWs ws) (fun _ => pureM true))
  else
    pureM false

/-- Atomic check-and-insert of lines 114-119: returns the new registry and
whether the insert happened (`False` = username already taken). -/
def registerClient (c : List (String × Nat)) (u : String) (h : Nat) :
    List (String × Nat) × Bool :=
  if (findHandle u c).isSome then (c, false) else (c ++ [(u, h)], true)

/-- Atomic guarded removal of lines 160-162: remove the entry only when it
still maps to exactly this handle. -/
def deregisterClient (c : List (String × Nat)) (u : String) (h : Nat) :
    List (String × Nat) :=
  if findHandle u c = some h then c.filter (fun p => decide (p.1 ≠ u)) else c

/-- One inbound transport message after classification by `json.loads`. -/
inductive Raw where
  | notJson
  | val (v : JVal)

/-- Outcome of `await asyncio.wait_for(ws.recv(), timeout=15)`: either the
15-second window expired or one raw message arrived. -/
inductive AuthIn where
  | timeoutErr
  | received (r : Raw)

/-- Lines 87-127 of `handler`: the authentication handshake and, on success,
registration plus the join announcements. Returns `some username` when the
session reaches the authenticated loop, `none` when the handler returned
early; an `M`-level exception models an uncaught Python error. -/
def authPhase (fails : Nat → Bool) (ws : Nat) (firstMsg : AuthIn) :
    M (Option String) :=
  match firstMsg with
  | AuthIn.timeoutErr =>
    bindM (send_json fails ws (Packet.authFail "No auth received"))
      (fun _ => bindM (closeWs ws) (fun _ => pureM none))
  | AuthIn.received Raw.notJson =>
    bindM (send_json fails ws (Packet.authFail "Malformed auth"))
      (fun _ => bindM (closeWs ws) (fun _ => pureM none))
  | AuthIn.received (Raw.val v) =>
    match v with
    | JVal.jobj fields =>
      if oeqStr (jget fields "type") "auth" = false
          ∨ truthy (jget fields "username") = false
          ∨ truthy (jget fields "password") = false then
        bindM (send_json fails ws (Packet.authFail "Auth required"))
          (fun _ => bindM (closeWs ws) (fun _ => pureM none))
      else
        match jget fields "username" with
        | some (JVal.jstr uname) =>
          let username := pyStrip uname
          if oeqStr (jget fields "password") CHAT_PASSWORD = false then
            bindM (send_json fails ws (Packet.authFail "Wrong password"))
              (fun _ => bindM (closeWs ws) (fun _ => pureM none))
          else
            bindM getSt (fun s =>
              match registerClient s.clients username ws with
              | (c', true) =>
                bindM (setClients c') (fun _ =>
                bindM (send_json fails ws Packet.authOk) (fun _ =>
                bindM (broadcast_packet fails
                         (Packet.system ("*** " ++ username ++ " joined the chat ***"))
                         (some username)) (fun _ =>
                bindM getSt (fun s2 =>
                bindM (broadcast_packet fails
                         (Packet.users (keysOf s2.clients)) none) (fun _ =>
                pureM (some username))))))
              | (_, false) =>
                bindM (send_json fails ws (Packet.authFail "Username already taken"))
                  (fun _ => bindM (closeWs ws) (fun _ => pureM none)))
        | _ => raiseM
    | _ => raiseM

/-- Lines 130-155, body of the authenticated receive loop for one inbound
message. Non-dict JSON and chat packets whose `text` is not a string raise
uncaught errors (`AttributeError`/`TypeError`), modelled by `raiseM`. -/
def loopStep (fails : Nat → Bool) (username : String) (ws : Nat) (ts : String) :
    Raw → M Unit
  | Raw.notJson =>
    send_json fails ws (Packet.system "Malformed packet (expecting JSON).")
  | Raw.val v =>
    match v with
    | JVal.jobj fields =>
      if oeqStr (jget fields "type") "chat" = false
          ∨ hasField fields "text" = false then
        send_json fails ws (Packet.system "Unknown packet type.")
      else
        match jget fields "text" with
        | some (JVal.jstr t) =>
          let text := pyTruncate t
          bindM (handle_command fails username text ws ts) (fun handled =>
            if handled then
              bindM getSt (fun s =>
                broadcast_packet fails (Packet.users (keysOf s.clients)) none)
            else
              broadcast_packet fails (Packet.chatMsg username text ts) none)
        | some _ => raiseM
        | none => raiseM
    | _ => raiseM

/-- The `async for incoming in ws` loop: processes messages in order; once
`ws` has been closed (by `/quit`) iteration ends. The list running out models
the client disconnecting. -/
def sessionLoop (fails : Nat → Bool) (username : String) (ws : Nat)
    (ts : String) : List Raw → M Unit
  | [] => pureM ()
  | m :: rest =>
    bindM (loopStep fails username ws ts m) (fun _ =>
      bindM getSt (fun s =>
        if ws ∈ s.closedConns then pureM ()
        else sessionLoop fails username ws ts rest))

/-- The `finally` block (lines 159-166): guarded deregistration, leave
announcement, fresh users snapshot. -/
def teardown (fails : Nat → Bool) (username : String) (ws : Nat) : M Unit :=
  bindM getSt (fun s =>
  bindM (setClients (deregisterClient s.clients username ws)) (fun _ =>
  bindM (broadcast_packet fails
          (Packet.system ("*** " ++ username ++ " left the chat ***")) none)
    (fun _ =>
  bindM getSt (fun s2 =>
    broadcast_packet fails (Packet.users (keysOf s2.clients)) none))))

/-- `try: async for ... finally: teardown`: the teardown always runs; an
exception escaping the loop (other than the caught `ConnectionClosed`)
resumes propagating after the `finally` block. -/
def sessionRun (fails : Nat → Bool) (username : String) (ws : Nat) (ts : String)
    (msgs : List Raw) : M Unit := fun s =>
  match sessionLoop fails username ws ts msgs s with
  | (r, s') =>
    match teardown fails username ws s' with
    | (none, s'') => (none, s'')
    | (some _, s'') => (r, s'')

/-- The whole `handler` coroutine: authentication phase, then the
authenticated session (loop + teardown) only when auth succeeded. -/
def handler (fails : Nat → Bool) (ws : Nat) (ts : String) (firstMsg : AuthIn)
    (msgs : List Raw) : M Unit :=
  bindM (authPhase fails ws firstMsg) (fun r =>
    match r with
    | none => pureM ()
    | some username => sessionRun fails username ws ts msgs)

/-- A registry mutation performed by some session: the register critical
section or the teardown's guarded deregistration. -/
inductive RegOp where
  | reg (u : String) (h : Nat)
  | dereg (u : String) (h : Nat)
  deriving DecidableEq, Repr

/-- Apply one registry operation. -/
def applyOp (c : List (String × Nat)) : RegOp → List (String × Nat)
  | RegOp.reg u h => (registerClient c u h).1
  | RegOp.dereg u h => deregisterClient c u h

/-- Apply a sequence of registry operations in order. -/
def applyOps (c : List (String × Nat)) (ops : List RegOp) : List (String × Nat) :=
  ops.foldl applyOp c

/-- The delivery events one pass of `bcastLoop` produces over a snapshot:
one `sent` per entry that is not excluded, not failing and not closed. -/
def sendsTo (fails : Nat → Bool) (cl : List Nat) (excl : Option String)
    (pkt : Packet) (l : List (String × Nat)) : List Event :=
  l.filterMap (fun p =>
    if excl = some p.1 ∨ fails p.2 = true ∨ p.2 ∈ cl then none
    else some (Event.sent p.2 pkt))


/-! ### Run lemmas for the monadic primitives -/

theorem pureM_run {α : Type} (a : α) (s : St) : pureM a s = (some a, s) := rfl

theorem getSt_run (s : St) : getSt s = (some s, s) := rfl

theorem bindM_run_some {α β : Type} {x : M α} {a : α} {t : St}
    (f : α → M β) (s : St) (h : x s = (some a, t)) :
    bindM x f s = f a t := by
  simp only [bindM, h]

theorem bindM_run_none {α β : Type} {x : M α} {t : St}
    (f : α → M β) (s : St) (h : x s = (none, t)) :
    bindM x f s = (none, t) := by
  simp only [bindM, h]

theorem send_json_ok {fails : Nat → Bool} {h : Nat} {s : St}
    (p : Packet) (hf : fails h = false) (hc : h ∉ s.closedConns) :
    send_json fails h p s =
      (some (), { s with events := s.events ++ [Event.sent h p] }) := by
  have hcond : ¬ (fails h = true ∨ h ∈ s.closedConns) := by
    simp [hf, hc]
  simp only [send_json, tryCatchAll, sendRaw, if_neg hcond]

theorem send_json_blocked {fails : Nat → Bool} {h : Nat} {s : St}
    (p : Packet) (hcond : fails h = true ∨ h ∈ s.closedConns) :
    send_json fails h p s = (some (), s) := by
  simp only [send_json, tryCatchAll, sendRaw, if_pos hcond]
  rfl

theorem closeWs_run (h : Nat) (s : St) :
    closeWs h s =
      (some (), { s with closedConns := h :: s.closedConns,
                         events := s.events ++ [Event.closedConn h] }) := rfl

theorem setClients_run (c : List (String × Nat)) (s : St) :
    setClients c s = (some (), { s with clients := c }) := rfl

/-! ### The broadcast fan-out -/

theorem sendsTo_nil (fails : Nat → Bool) (cl : List Nat) (excl : Option String)
    (pkt : Packet) : sendsTo fails cl excl pkt [] = [] := rfl

theorem sendsTo_cons (fails : Nat → Bool) (cl : List Nat) (excl : Option String)
    (pkt : Packet) (p : String × Nat) (rest : List (String × Nat)) :
    sendsTo fails cl excl pkt (p :: rest) =
      if excl = some p.1 ∨ fails p.2 = true ∨ p.2 ∈ cl then
        sendsTo fails cl excl pkt rest
      else Event.sent p.2 pkt :: sendsTo fails cl excl pkt rest := by
  simp only [sendsTo, List.filterMap_cons]
  by_cases hc : excl = some p.1 ∨ fails p.2 = true ∨ p.2 ∈ cl
  · rw [if_pos hc, if_pos hc]
  · rw [if_neg hc, if_neg hc]

/-- Full characterization of one broadcast pass: every entry of the snapshot
is attempted in order, failing and closed handles are silently skipped (the
`del` in the `except` branch is dead code since `send_json` never raises),
and neither the registry nor the closed set changes. -/
theorem bcastLoop_run (fails : Nat → Bool) (pkt : Packet) (excl : Option String) :
    ∀ (l : List (String × Nat)) (s : St),
    bcastLoop fails pkt excl l s =
      (some (), { s with events := s.events ++ sendsTo fails s.closedConns excl pkt l })
  | [], s => by
    simp [bcastLoop, pureM, sendsTo]
  | (u, h) :: rest, s => by
    rw [bcastLoop]
    by_cases he : excl = some u
    · rw [if_pos he]
      have h1 : (pureM () : M Unit) s = (some (), s) := rfl
      rw [bindM_run_some _ s h1, bcastLoop_run fails pkt excl rest s,
          sendsTo_cons]
      have hc : excl = some (u, h).1 ∨ fails (u, h).2 = true ∨ (u, h).2 ∈ s.closedConns :=
        Or.inl he
      rw [if_pos hc]
    · rw [if_neg he]
      by_cases hbad : fails h = true ∨ h ∈ s.closedConns
      · have h1 : tryCatchAll (send_json fails h pkt) (delKey u) s = (some (), s) := by
          simp only [tryCatchAll, send_json_blocked pkt hbad]
        rw [bindM_run_some _ s h1, bcastLoop_run fails pkt excl rest s, sendsTo_cons]
        have hc : excl = some (u, h).1 ∨ fails (u, h).2 = true ∨ (u, h).2 ∈ s.closedConns :=
          Or.inr hbad
        rw [if_pos hc]
      · have hf : fails h = false := by
          rcases Bool.eq_false_or_eq_true (fails h) with hh | hh
          · exact absurd (Or.inl hh) hbad
          · exact hh
        have hm : h ∉ s.closedConns := fun hmem => hbad (Or.inr hmem)
        have h1 : tryCatchAll (send_json fails h pkt) (delKey u) s =
            (some (), { s with events := s.events ++ [Event.sent h pkt] }) := by
          simp only [tryCatchAll, send_json_ok pkt hf hm]
        rw [bindM_run_some _ s h1,
            bcastLoop_run fails pkt excl rest { s with events := s.events ++ [Event.sent h pkt] },
            sendsTo_cons]
        have hc : ¬ (excl = some (u, h).1 ∨ fails (u, h).2 = true ∨ (u, h).2 ∈ s.closedConns) := by
          intro hor
          rcases hor with hh | hh | hh
          · exact he hh
          · exact absurd hh (by simp [hf])
          · exact hm hh
        rw [if_neg hc]
        simp [List.append_assoc]

/-- `broadcast_packet` appends exactly the fan-out events of the current
snapshot and changes no other state. -/
theorem broadcast_packet_run (fails : Nat → Bool) (pkt : Packet)
    (excl : Option String) (s : St) :
    broadcast_packet fails pkt excl s =
      (some (), { s with events :=
        s.events ++ sendsTo fails s.closedConns excl pkt s.clients }) := by
  rw [broadcast_packet, bindM_run_some _ s (getSt_run s), bcastLoop_run]

/-- With healthy transports and no closed sockets among the snapshot the
fan-out delivers to every non-excluded entry. -/
theorem sendsTo_to_map {fails : Nat → Bool} {cl : List Nat}
    {pkt : Packet} : ∀ {l : List (String × Nat)},
    (∀ p ∈ l, fails p.2 = false) → (∀ p ∈ l, p.2 ∉ cl) →
    sendsTo fails cl none pkt l = l.map (fun p => Event.sent p.2 pkt)
  | [], _, _ => rfl
  | p :: rest, hf, hc => by
    rw [sendsTo_cons]
    have hcond : ¬ ((none : Option String) = some p.1 ∨ fails p.2 = true ∨ p.2 ∈ cl) := by
      intro hor
      rcases hor with hh | hh | hh
      · exact Option.noConfusion hh
      · exact absurd hh (by simp [hf p (List.mem_cons_self p rest)])
      · exact hc p (List.mem_cons_self p rest) hh
    rw [if_neg hcond, List.map_cons,
        sendsTo_to_map (fun q hq => hf q (List.mem_cons_of_mem p hq))
          (fun q hq => hc q (List.mem_cons_of_mem p hq))]

/-- With healthy transports, a broadcast excluding username `u` delivers to
exactly the entries whose key differs from `u`. -/
theorem sendsTo_excl_map {fails : Nat → Bool} {cl : List Nat}
    {pkt : Packet} {u : String} : ∀ {l : List (String × Nat)},
    (∀ p ∈ l, fails p.2 = false) → (∀ p ∈ l, p.2 ∉ cl) →
    sendsTo fails cl (some u) pkt l =
      (l.filter (fun p => decide (p.1 ≠ u))).map (fun p => Event.sent p.2 pkt)
  | [], _, _ => rfl
  | p :: rest, hf, hc => by
    rw [sendsTo_cons, List.filter_cons]
    by_cases he : p.1 = u
    · have hcond : (some u : Option String) = some p.1 ∨ fails p.2 = true ∨ p.2 ∈ cl :=
        Or.inl (by rw [he])
      rw [if_pos hcond]
      have : (decide (p.1 ≠ u)) = false := by simp [he]
      rw [this]
      simp only [Bool.false_eq_true, if_false]
      exact sendsTo_excl_map (fun q hq => hf q (List.mem_cons_of_mem p hq))
        (fun q hq => hc q (List.mem_cons_of_mem p hq))
    · have hcond : ¬ ((some u : Option String) = some p.1 ∨ fails p.2 = true ∨ p.2 ∈ cl) := by
        intro hor
        rcases hor with hh | hh | hh
        · exact he (Option.some.inj hh).symm
        · exact absurd hh (by simp [hf p (List.mem_cons_self p rest)])
        · exact hc p (List.mem_cons_self p rest) hh
      rw [if_neg hcond]
      have : (decide (p.1 ≠ u)) = true := by simp [he]
      rw [this]
      simp only [if_true, List.map_cons]
      rw [sendsTo_excl_map (fun q hq => hf q (List.mem_cons_of_mem p hq))
        (fun q hq => hc q (List.mem_cons_of_mem p hq))]

/-- With healthy transports but one closed handle `w`, an unexcluded
broadcast delivers to exactly the entries whose handle differs from `w`. -/
theorem sendsTo_closed_filter {fails : Nat → Bool} {w : Nat}
    {pkt : Packet} : ∀ {l : List (String × Nat)},
    (∀ p ∈ l, fails p.2 = false) →
    sendsTo fails [w] none pkt l =
      (l.filter (fun p => decide (p.2 ≠ w))).map (fun p => Event.sent p.2 pkt)
  | [], _ => rfl
  | p :: rest, hf => by
    rw [sendsTo_cons, List.filter_cons]
    by_cases he : p.2 = w
    · have hcond : (none : Option String) = some p.1 ∨ fails p.2 = true ∨ p.2 ∈ [w] :=
        Or.inr (Or.inr (by simp [he]))
      rw [if_pos hcond]
      have : (decide (p.2 ≠ w)) = false := by simp [he]
      rw [this]
      simp only [Bool.false_eq_true, if_false]
      exact sendsTo_closed_filter (fun q hq => hf q (List.mem_cons_of_mem p hq))
    · have hcond : ¬ ((none : Option String) = some p.1 ∨ fails p.2 = true ∨ p.2 ∈ [w]) := by
        intro hor
        rcases hor with hh | hh | hh
        · exact Option.noConfusion hh
        · exact absurd hh (by simp [hf p (List.mem_cons_self p rest)])
        · exact he (by simpa using hh)
      rw [if_neg hcond]
      have : (decide (p.2 ≠ w)) = true := by simp [he]
      rw [this]
      simp only [if_true, List.map_cons]
      rw [sendsTo_closed_filter (fun q hq => hf q (List.mem_cons_of_mem p hq))]

/-! ### String and character-list helpers -/

theorem strext {s t : String} (h : s.data = t.data) : s = t := by
  cases s
  cases t
  exact congrArg String.mk h

theorem mk_data (s : String) : String.mk s.data = s := rfl

theorem dropWhile_of_head_false {p : Char → Bool} {c : Char} {l : List Char}
    (h : p c = false) : (c :: l).dropWhile p = c :: l := by
  rw [List.dropWhile_cons, h]
  simp

/-- A string whose first character exists and is not whitespace, and whose
last character is not whitespace, is unchanged by `strip`. -/
theorem pyStrip_eq_self {c d : Char} {mid : List Char} {s : String}
    (hd : s.data = c :: mid ++ [d])
    (hc : wsChar c = false) (hdw : wsChar d = false) :
    pyStrip s = s := by
  apply strext
  show ((s.data.dropWhile wsChar).reverse.dropWhile wsChar).reverse = s.data
  rw [hd]
  rw [show (c :: mid ++ [d] : List Char) = c :: (mid ++ [d]) from rfl]
  rw [dropWhile_of_head_false hc]
  have hrev : (c :: (mid ++ [d]) : List Char).reverse = d :: (mid.reverse ++ [c]) := by
    simp
  rw [hrev, dropWhile_of_head_false hdw, ← hrev, List.reverse_reverse]

theorem splitFirstSpace_cons (c : Char) (l : List Char) :
    splitFirstSpace (c :: l) =
      if c = ' ' then ([], some l)
      else ((c :: (splitFirstSpace l).1), (splitFirstSpace l).2) := by
  by_cases h : c = ' ' <;> simp [splitFirstSpace, h]

theorem splitFirstSpace_append {a : List Char} (b : List Char)
    (h : ∀ c ∈ a, c ≠ ' ') :
    splitFirstSpace (a ++ ' ' :: b) = (a, some b) := by
  induction a with
  | nil => simp [splitFirstSpace]
  | cons c cs ih =>
    have hc : c ≠ ' ' := h c (List.mem_cons_self c cs)
    rw [List.cons_append, splitFirstSpace_cons, if_neg hc,
        ih (fun x hx => h x (List.mem_cons_of_mem c hx))]

theorem splitFirstSpace_nospace {a : List Char} (h : ∀ c ∈ a, c ≠ ' ') :
    splitFirstSpace a = (a, none) := by
  induction a with
  | nil => rfl
  | cons c cs ih =>
    have hc : c ≠ ' ' := h c (List.mem_cons_self c cs)
    rw [splitFirstSpace_cons, if_neg hc,
        ih (fun x hx => h x (List.mem_cons_of_mem c hx))]

theorem isPrefixCh_append (a b : List Char) : isPrefixCh a (a ++ b) = true := by
  induction a with
  | nil => rfl
  | cons c cs ih => simp [isPrefixCh, ih]

theorem isPrefixCh_exists : ∀ {a b : List Char},
    isPrefixCh a b = true → ∃ r, b = a ++ r
  | [], b, _ => ⟨b, rfl⟩
  | c :: cs, [], h => by simp [isPrefixCh] at h
  | c :: cs, d :: ds, h => by
    simp only [isPrefixCh, Bool.and_eq_true, decide_eq_true_eq] at h
    obtain ⟨r, hr⟩ := isPrefixCh_exists h.2
    exact ⟨r, by rw [h.1, hr]; rfl⟩

theorem pyTruncate_of_le {s : String} (h : s.data.length ≤ MAX_MSG) :
    pyTruncate s = s := by
  apply strext
  show (s.data.take MAX_MSG) = s.data
  exact List.take_of_length_le h

/-! ### Registry lemmas -/

theorem findHandle_eq_none {u : String} : ∀ {c : List (String × Nat)},
    findHandle u c = none ↔ ∀ p ∈ c, p.1 ≠ u
  | [] => by simp [findHandle]
  | p :: rest => by
    rw [findHandle]
    by_cases h : p.1 = u
    · simp only [if_pos h]
      constructor
      · intro hh
        exact Option.noConfusion hh
      · intro hall
        exact absurd h (hall p (List.mem_cons_self p rest))
    · simp only [if_neg h]
      rw [findHandle_eq_none]
      constructor
      · intro hall q hq
        rcases List.mem_cons.mp hq with rfl | hq'
        · exact h
        · exact hall q hq'
      · intro hall q hq
        exact hall q (List.mem_cons_of_mem p hq)

theorem findHandle_mem {u : String} {h : Nat} : ∀ {c : List (String × Nat)},
    findHandle u c = some h → (u, h) ∈ c
  | [], hf => Option.noConfusion hf
  | (a, b) :: rest, hf => by
    rw [findHandle] at hf
    by_cases hp : (a, b).1 = u
    · rw [if_pos hp] at hf
      have hb : b = h := Option.some.inj hf
      have ha : a = u := hp
      rw [← ha, ← hb]
      exact List.mem_cons_self (a, b) rest
    · rw [if_neg hp] at hf
      exact List.mem_cons_of_mem (a, b) (findHandle_mem hf)

theorem keysOf_append (a b : List (String × Nat)) :
    keysOf (a ++ b) = keysOf a ++ keysOf b := List.map_append Prod.fst a b

/-- A successful register appends the new entry; keys stay duplicate-free. -/
theorem registerClient_nodup {c : List (String × Nat)} {u : String} {h : Nat}
    (hn : (keysOf c).Nodup) : (keysOf (registerClient c u h).1).Nodup := by
  rw [registerClient]
  by_cases hf : (findHandle u c).isSome
  · rw [if_pos hf]
    exact hn
  · rw [if_neg hf]
    have hnone : findHandle u c = none := by
      cases hfc : findHandle u c
      · rfl
      · rw [hfc] at hf
        simp at hf
    have hun : ∀ p ∈ c, p.1 ≠ u := findHandle_eq_none.mp hnone
    rw [keysOf_append]
    rw [List.nodup_append]
    refine ⟨hn, List.nodup_singleton u, ?_⟩
    intro x hx hx'
    have hxu : x = u := by
      simpa [keysOf] using hx'
    obtain ⟨p, hp, hpx⟩ := List.mem_map.mp hx
    exact hun p hp (by rw [hpx, hxu])

/-- Deregistration removes entries, so keys stay duplicate-free. -/
theorem deregisterClient_nodup {c : List (String × Nat)} {u : String} {h : Nat}
    (hn : (keysOf c).Nodup) : (keysOf (deregisterClient c u h)).Nodup := by
  rw [deregisterClient]
  by_cases hf : findHandle u c = some h
  · rw [if_pos hf]
    exact List.Nodup.sublist (List.Sublist.map Prod.fst (List.filter_sublist c)) hn
  · rw [if_neg hf]
    exact hn

theorem applyOps_nodup : ∀ (ops : List RegOp) (c : List (String × Nat)),
    (keysOf c).Nodup → (keysOf (applyOps c ops)).Nodup
  | [], c, hn => hn
  | op :: rest, c, hn => by
    rw [applyOps, List.foldl_cons]
    have hstep : (keysOf (applyOp c op)).Nodup := by
      cases op with
      | reg u h => exact registerClient_nodup hn
      | dereg u h => exact deregisterClient_nodup hn
    exact applyOps_nodup rest (applyOp c op) hstep

/-! ### Characterizations of the authentication phase -/

/-- Timeout branch (lines 87-92): one `AuthFail` then close, no registration. -/
theorem authPhase_timeout_run {fails : Nat → Bool} {ws : Nat} {s : St}
    (hf : fails ws = false) (hc : ws ∉ s.closedConns) :
    authPhase fails ws AuthIn.timeoutErr s =
      (some none,
        { s with closedConns := ws :: s.closedConns,
                 events := s.events ++
                   [Event.sent ws (Packet.authFail "No auth received"),
                    Event.closedConn ws] }) := by
  show (bindM (send_json fails ws (Packet.authFail "No auth received"))
      (fun _ => bindM (closeWs ws) (fun _ => pureM none))) s = _
  rw [bindM_run_some _ s (send_json_ok _ hf hc)]
  rw [bindM_run_some _ _ (closeWs_run ws _)]
  simp [pureM]

/-- Registration attempt on a taken username (lines 113-118): one `AuthFail`
with reason `Username already taken`, close, registry untouched. -/
theorem authPhase_taken_run {fails : Nat → Bool} {ws h0 : Nat}
    {fields : List (String × JVal)} {uname : String} {s : St}
    (ht : oeqStr (jget fields "type") "auth" = true)
    (hu : jget fields "username" = some (JVal.jstr uname))
    (hne : uname ≠ "")
    (hp : jget fields "password" = some (JVal.jstr CHAT_PASSWORD))
    (htaken : findHandle (pyStrip uname) s.clients = some h0)
    (hfw : fails ws = false) (hcw : ws ∉ s.closedConns) :
    authPhase fails ws (AuthIn.received (Raw.val (JVal.jobj fields))) s =
      (some none,
        { s with closedConns := ws :: s.closedConns,
                 events := s.events ++
                   [Event.sent ws (Packet.authFail "Username already taken"),
                    Event.closedConn ws] }) := by
  have h1 : ¬ (oeqStr (jget fields "type") "auth" = false
      ∨ truthy (jget fields "username") = false
      ∨ truthy (jget fields "password") = false) := by
    simp [ht, hu, hp, truthy, hne, CHAT_PASSWORD]
  have h2 : ¬ (oeqStr (jget fields "password") CHAT_PASSWORD = false) := by
    simp [hp, oeqStr]
  have hreg : registerClient s.clients (pyStrip uname) ws = (s.clients, false) := by
    rw [registerClient, htaken]
    simp
  simp only [authPhase]
  rw [if_neg h1]
  simp only [hu]
  rw [if_neg h2]
  rw [bindM_run_some _ s (getSt_run s)]
  simp only [hreg]
  rw [bindM_run_some _ s (send_json_ok _ hfw hcw)]
  rw [bindM_run_some _ _ (closeWs_run ws _)]
  simp [pureM]

/-- Successful authentication (lines 100-127): register (append at the end of
the dict), send `auth_ok`, broadcast the join notice excluding the joiner,
broadcast the fresh users snapshot to everyone. -/
theorem authPhase_success_run {fails : Nat → Bool} {ws : Nat}
    {fields : List (String × JVal)} {uname : String} {s : St}
    (ht : oeqStr (jget fields "type") "auth" = true)
    (hu : jget fields "username" = some (JVal.jstr uname))
    (hne : uname ≠ "")
    (hp : jget fields "password" = some (JVal.jstr CHAT_PASSWORD))
    (hfree : findHandle (pyStrip uname) s.clients = none)
    (hfw : fails ws = false) (hcw : ws ∉ s.closedConns) :
    authPhase fails ws (AuthIn.received (Raw.val (JVal.jobj fields))) s =
      (some (some (pyStrip uname)),
        { clients := s.clients ++ [(pyStrip uname, ws)],
          closedConns := s.closedConns,
          events := s.events
            ++ [Event.sent ws Packet.authOk]
            ++ sendsTo fails s.closedConns (some (pyStrip uname))
                 (Packet.system ("*** " ++ pyStrip uname ++ " joined the chat ***"))
                 (s.clients ++ [(pyStrip uname, ws)])
            ++ sendsTo fails s.closedConns none
                 (Packet.users (keysOf (s.clients ++ [(pyStrip uname, ws)])))
                 (s.clients ++ [(pyStrip uname, ws)]) }) := by
  have h1 : ¬ (oeqStr (jget fields "type") "auth" = false
      ∨ truthy (jget fields "username") = false
      ∨ truthy (jget fields "password") = false) := by
    simp [ht, hu, hp, truthy, hne, CHAT_PASSWORD]
  have h2 : ¬ (oeqStr (jget fields "password") CHAT_PASSWORD = false) := by
    simp [hp, oeqStr]
  have hreg : registerClient s.clients (pyStrip uname) ws =
      (s.clients ++ [(pyStrip uname, ws)], true) := by
    rw [registerClient, hfree]
    simp
  simp only [authPhase]
  rw [if_neg h1]
  simp only [hu]
  rw [if_neg h2]
  rw [bindM_run_some _ s (getSt_run s)]
  simp only [hreg]
  rw [bindM_run_some _ s (setClients_run _ s)]
  have hcw1 : ws ∉ ({ s with clients := s.clients ++ [(pyStrip uname, ws)] } : St).closedConns := hcw
  rw [bindM_run_some _ _ (send_json_ok Packet.authOk hfw hcw1)]
  rw [bindM_run_some _ _ (broadcast_packet_run fails _ _ _)]
  rw [bindM_run_some _ _ (getSt_run _)]
  rw [bindM_run_some _ _ (broadcast_packet_run fails _ _ _)]
  simp [pureM, List.append_assoc]

/-! ### Parsing facts about the private-message command text -/

theorem pyStrip_msgB (B : String) :
    pyStrip ("/msg " ++ B ++ " hello") = "/msg " ++ B ++ " hello" := by
  apply @pyStrip_eq_self '/' 'o'
    (['m', 's', 'g', ' '] ++ B.data ++ [' ', 'h', 'e', 'l', 'l'])
    ("/msg " ++ B ++ " hello")
  · rw [String.data_append, String.data_append]
    show (['/', 'm', 's', 'g', ' '] : List Char) ++ B.data
        ++ ([' ', 'h', 'e', 'l', 'l', 'o'] : List Char) = _
    simp
  · rfl
  · rfl

theorem pySplit2_msgB {B : String} (hB : ∀ c ∈ B.data, c ≠ ' ') :
    pySplit2 ("/msg " ++ B ++ " hello") = ["/msg", B, "hello"] := by
  have hd : ("/msg " ++ B ++ " hello").data
      = ['/', 'm', 's', 'g'] ++ ' ' :: (B.data ++ ' ' :: ['h', 'e', 'l', 'l', 'o']) := by
    rw [String.data_append, String.data_append]
    show (['/', 'm', 's', 'g', ' '] : List Char) ++ B.data
        ++ ([' ', 'h', 'e', 'l', 'l', 'o'] : List Char) = _
    simp
  have h1 : splitFirstSpace ("/msg " ++ B ++ " hello").data
      = (['/', 'm', 's', 'g'], some (B.data ++ ' ' :: ['h', 'e', 'l', 'l', 'o'])) := by
    rw [hd]
    exact splitFirstSpace_append _ (by decide)
  have h2 : splitFirstSpace (B.data ++ ' ' :: ['h', 'e', 'l', 'l', 'o'])
      = (B.data, some ['h', 'e', 'l', 'l', 'o']) :=
    splitFirstSpace_append _ hB
  rw [pySplit2, h1]
  simp only [h2]

theorem pyStartsWith_msgB (B : String) :
    pyStartsWith ("/msg " ++ B ++ " hello") "/msg " = true := by
  show isPrefixCh ("/msg ").data ("/msg " ++ B ++ " hello").data = true
  have hd : ("/msg " ++ B ++ " hello").data
      = ("/msg ").data ++ (B.data ++ (" hello").data) := by
    rw [String.data_append, String.data_append, List.append_assoc]
  rw [hd]
  exact isPrefixCh_append _ _

/-- A stripped text recognized by the `/msg ` prefix test cannot be the
`/users` command. -/
theorem startsMsg_ne_users {l : String} (h : pyStartsWith l "/msg " = true) :
    l ≠ "/users" := by
  obtain ⟨r, hr⟩ := isPrefixCh_exists h
  intro he
  rw [he] at hr
  have hr' : (['/', 'u', 's', 'e', 'r', 's'] : List Char)
      = ['/', 'm', 's', 'g', ' '] ++ r := hr
  rw [List.cons_append] at hr'
  injection hr' with h1 h2
  rw [List.cons_append] at h2
  injection h2 with h3 h4
  exact absurd h3 (by decide)

/-! ### Characterizations of the command dispatcher -/

/-- The found-target branch of `/msg` (lines 58-74): exactly one `private`
delivery to the target and one `system` acknowledgment to the sender. -/
theorem handle_command_privmsg {fails : Nat → Bool} {A B ts : String}
    {ws wsB : Nat} {s : St}
    (hB : ∀ c ∈ B.data, c ≠ ' ')
    (hfind : findHandle B s.clients = some wsB)
    (hfwB : fails wsB = false) (hcwB : wsB ∉ s.closedConns)
    (hfw : fails ws = false) (hcw : ws ∉ s.closedConns) :
    handle_command fails A ("/msg " ++ B ++ " hello") ws ts s =
      (some true, { s with events := s.events ++
        [Event.sent wsB (Packet.privMsg A "hello" ts),
         Event.sent ws (Packet.system "Private message sent.")] }) := by
  have hne := startsMsg_ne_users (pyStartsWith_msgB B)
  simp only [handle_command, pyStrip_msgB]
  rw [if_neg hne, pyStartsWith_msgB B, if_pos rfl, pySplit2_msgB hB]
  rw [if_neg (show ¬ ((["/msg", B, "hello"] : List String).length < 3) by simp)]
  show bindM getSt _ s = _
  rw [bindM_run_some _ s (getSt_run s)]
  simp only [hfind]
  rw [bindM_run_some _ s (send_json_ok _ hfwB hcwB)]
  have hcw1 : ws ∉ ({ s with events := s.events
      ++ [Event.sent wsB (Packet.privMsg A "hello" ts)] } : St).closedConns := hcw
  rw [bindM_run_some _ _ (send_json_ok _ hfw hcw1)]
  simp [pureM, List.append_assoc]

/-- The usage-error branch of `/msg` (lines 58-63): a stripped text that
starts with the five characters of `/msg ` but splits into fewer than three
parts draws exactly one usage reply to the sender and nothing else. -/
theorem handle_command_usage {fails : Nat → Bool} {username text ts : String}
    {ws : Nat} {s : St}
    (hsw : pyStartsWith (pyStrip text) "/msg " = true)
    (hlen : (pySplit2 (pyStrip text)).length < 3)
    (hfw : fails ws = false) (hcw : ws ∉ s.closedConns) :
    handle_command fails username text ws ts s =
      (some true, { s with events := s.events ++
        [Event.sent ws (Packet.system "Usage: /msg <user> <message>")] }) := by
  have hne := startsMsg_ne_users hsw
  simp only [handle_command]
  rw [if_neg hne, hsw, if_pos rfl, if_pos hlen]
  rw [bindM_run_some _ s (send_json_ok _ hfw hcw)]
  simp [pureM]

/-- A chat text that strips to exactly `/msg` (no trailing argument) is not
recognized as any command and falls through to the ordinary broadcast. -/
theorem handle_command_bare_msg (fails : Nat → Bool) (username ts : String)
    (ws : Nat) (s : St) :
    handle_command fails username "/msg" ws ts s = (some false, s) := rfl

/-- The `/quit` branch (lines 76-80): a goodbye reply to the sender, then
the socket is closed; the registry is untouched here. -/
theorem handle_command_quit {fails : Nat → Bool} {username ts : String}
    {ws : Nat} {s : St}
    (hfw : fails ws = false) (hcw : ws ∉ s.closedConns) :
    handle_command fails username (pyTruncate "/quit") ws ts s =
      (some true, { s with closedConns := ws :: s.closedConns,
                           events := s.events ++
                             [Event.sent ws (Packet.system "Goodbye."),
                              Event.closedConn ws] }) := by
  simp only [handle_command]
  rw [if_neg (by decide : ¬ (pyStrip (pyTruncate "/quit") = "/users"))]
  rw [if_neg (by decide : ¬ (pyStartsWith (pyStrip (pyTruncate "/quit")) "/msg " = true))]
  rw [if_pos (by decide : pyStrip (pyTruncate "/quit") = "/quit")]
  rw [bindM_run_some _ s (send_json_ok _ hfw hcw)]
  rw [bindM_run_some _ _ (closeWs_run ws _)]
  simp [pureM, List.append_assoc]

/-! ### Characterizations of the authenticated receive-loop body -/

/-- After any handled command (lines 144-151), the handler broadcasts a
fresh users snapshot of the then-current registry to the whole registry. -/
theorem loopStep_cmd_run {fails : Nat → Bool} {username ts : String} {ws : Nat}
    {fields : List (String × JVal)} {t : String} {s s' : St}
    (htype : oeqStr (jget fields "type") "chat" = true)
    (htext : jget fields "text" = some (JVal.jstr t))
    (hcmd : handle_command fails username (pyTruncate t) ws ts s = (some true, s')) :
    loopStep fails username ws ts (Raw.val (JVal.jobj fields)) s =
      (some (), { s' with events := (s'.events ++
                    sendsTo fails s'.closedConns none
                      (Packet.users (keysOf s'.clients)) s'.clients) }) := by
  have h1 : ¬ (oeqStr (jget fields "type") "chat" = false
      ∨ hasField fields "text" = false) := by
    simp [htype, hasField, htext]
  simp only [loopStep]
  rw [if_neg h1]
  simp only [htext]
  rw [bindM_run_some _ s hcmd]
  show bindM getSt
      (fun s2 => broadcast_packet fails (Packet.users (keysOf s2.clients)) none) s' = _
  rw [bindM_run_some _ s' (getSt_run s')]
  exact broadcast_packet_run fails _ none s'

/-- An unhandled chat text (lines 153-155) is broadcast to the whole
registry, sender included. -/
theorem loopStep_chat_run {fails : Nat → Bool} {username ts : String} {ws : Nat}
    {fields : List (String × JVal)} {t : String} {s s' : St}
    (htype : oeqStr (jget fields "type") "chat" = true)
    (htext : jget fields "text" = some (JVal.jstr t))
    (hcmd : handle_command fails username (pyTruncate t) ws ts s = (some false, s')) :
    loopStep fails username ws ts (Raw.val (JVal.jobj fields)) s =
      (some (), { s' with events := (s'.events ++
                    sendsTo fails s'.closedConns none
                      (Packet.chatMsg username (pyTruncate t) ts) s'.clients) }) := by
  have h1 : ¬ (oeqStr (jget fields "type") "chat" = false
      ∨ hasField fields "text" = false) := by
    simp [htype, hasField, htext]
  simp only [loopStep]
  rw [if_neg h1]
  simp only [htext]
  rw [bindM_run_some _ s hcmd]
  show broadcast_packet fails (Packet.chatMsg username (pyTruncate t) ts) none s' = _
  exact broadcast_packet_run fails _ none s'

/-- Non-JSON input after auth (lines 132-136): one system reply, no state
change, session continues. -/
theorem loopStep_notJson_run {fails : Nat → Bool} {username ts : String}
    {ws : Nat} {s : St} (hfw : fails ws = false) (hcw : ws ∉ s.closedConns) :
    loopStep fails username ws ts Raw.notJson s =
      (some (), { s with events := s.events ++
        [Event.sent ws (Packet.system "Malformed packet (expecting JSON).")] }) := by
  show send_json fails ws (Packet.system "Malformed packet (expecting JSON).") s = _
  exact send_json_ok _ hfw hcw

/-- A JSON object that is not a well-formed chat packet (lines 138-140):
one system reply, no state change, session continues. -/
theorem loopStep_unknown_run {fails : Nat → Bool} {username ts : String}
    {ws : Nat} {fields : List (String × JVal)} {s : St}
    (hbad : oeqStr (jget fields "type") "chat" = false
      ∨ hasField fields "text" = false)
    (hfw : fails ws = false) (hcw : ws ∉ s.closedConns) :
    loopStep fails username ws ts (Raw.val (JVal.jobj fields)) s =
      (some (), { s with events := s.events ++
        [Event.sent ws (Packet.system "Unknown packet type.")] }) := by
  simp only [loopStep]
  rw [if_pos hbad]
  exact send_json_ok _ hfw hcw

/-! ### Teardown and session composition -/

/-- The `finally` block (lines 159-166): guarded deregistration, then the
leave notice and a fresh users snapshot, both fanned out over the registry
as it stands after the removal. -/
theorem teardown_run (fails : Nat → Bool) (username : String) (ws : Nat)
    (s : St) :
    teardown fails username ws s =
      (some (),
        { clients := deregisterClient s.clients username ws,
          closedConns := s.closedConns,
          events := (s.events
            ++ sendsTo fails s.closedConns none
                 (Packet.system ("*** " ++ username ++ " left the chat ***"))
                 (deregisterClient s.clients username ws)
            ++ sendsTo fails s.closedConns none
                 (Packet.users (keysOf (deregisterClient s.clients username ws)))
                 (deregisterClient s.clients username ws)) }) := by
  show bindM getSt _ s = _
  rw [bindM_run_some _ s (getSt_run s)]
  show bindM (setClients (deregisterClient s.clients username ws)) _ s = _
  rw [bindM_run_some _ s (setClients_run _ s)]
  show bindM (broadcast_packet fails
      (Packet.system ("*** " ++ username ++ " left the chat ***")) none) _ _ = _
  rw [bindM_run_some _ _ (broadcast_packet_run fails _ none _)]
  show bindM getSt _ _ = _
  rw [bindM_run_some _ _ (getSt_run _)]
  show broadcast_packet fails (Packet.users _) none _ = _
  rw [broadcast_packet_run fails _ none _]

/-- A one-message session whose step closes the socket: the receive loop
ends right after that message. -/
theorem sessionLoop_one_closed {fails : Nat → Bool} {username ts : String}
    {ws : Nat} {m : Raw} {s s2 : St}
    (hstep : loopStep fails username ws ts m s = (some (), s2))
    (hmem : ws ∈ s2.closedConns) (msgs : List Raw) :
    sessionLoop fails username ws ts (m :: msgs) s = (some (), s2) := by
  simp only [sessionLoop]
  rw [bindM_run_some _ s hstep]
  show bindM getSt _ s2 = _
  rw [bindM_run_some _ s2 (getSt_run s2)]
  show (if ws ∈ s2.closedConns then pureM ()
        else sessionLoop fails username ws ts msgs) s2 = _
  rw [if_pos hmem]
  rfl

/-- `try/finally` composition: the loop's outcome, then the teardown. -/
theorem sessionRun_of {fails : Nat → Bool} {username ts : String} {ws : Nat}
    {msgs : List Raw} {s s2 s3 : St} {r : Option Unit}
    (hloop : sessionLoop fails username ws ts msgs s = (r, s2))
    (htd : teardown fails username ws s2 = (some (), s3)) :
    sessionRun fails username ws ts msgs s = (r, s3) := by
  simp only [sessionRun, hloop, htd]

/-! ### Claim theorems -/

/-- C2: the claim says a registry entry whose send fails during a broadcast
is pruned within the same pass. The code cannot do this: `send_json` swallows
every exception, so `broadcast_packet` never reaches its `del clients[user]`
branch (despite the `drop client on error` comment). First conjunct: no
broadcast ever changes the registry. Second conjunct: at the failing input
(registry `alice`, `bob`; `bob`'s transport raising on send) the pass ends
with `bob` still registered and only `alice` served. -/
theorem claim2_broadcast_never_prunes :
    (∀ (fails : Nat → Bool) (pkt : Packet) (excl : Option String) (s : St),
        (broadcast_packet fails pkt excl s).2.clients = s.clients)
    ∧ broadcast_packet (fun h => decide (h = 1)) (Packet.system "hi") none
        ⟨[("alice", 0), ("bob", 1)], [], []⟩ =
      (some (), ⟨[("alice", 0), ("bob", 1)], [],
                 [Event.sent 0 (Packet.system "hi")]⟩) := by
  constructor
  · intro fails pkt excl s
    rw [broadcast_packet_run]
  · rfl

/-- C9: a connection that times out waiting for its first message receives
exactly one `AuthFail` with reason `No auth received`, is closed, and is
never registered; the whole handler run does nothing further. -/
theorem claim9_auth_timeout :
    ∀ (fails : Nat → Bool) (ws : Nat) (ts : String) (msgs : List Raw) (s : St),
    fails ws = false → ws ∉ s.closedConns →
    authPhase fails ws AuthIn.timeoutErr s =
      (some none,
        { s with closedConns := ws :: s.closedConns,
                 events := (s.events ++
                   [Event.sent ws (Packet.authFail "No auth received"),
                    Event.closedConn ws]) })
    ∧ handler fails ws ts AuthIn.timeoutErr msgs s =
      (some (),
        { s with closedConns := ws :: s.closedConns,
                 events := (s.events ++
                   [Event.sent ws (Packet.authFail "No auth received"),
                    Event.closedConn ws]) }) := by
  intro fails ws ts msgs s hf hc
  refine ⟨authPhase_timeout_run hf hc, ?_⟩
  show bindM (authPhase fails ws AuthIn.timeoutErr) _ s = _
  rw [bindM_run_some _ s (authPhase_timeout_run hf hc)]
  rfl

/-- Witness for C9 at a concrete connection and registry. -/
theorem claim9_auth_timeout_witness :
    authPhase (fun _ => false) 5 AuthIn.timeoutErr ⟨[("alice", 0)], [], []⟩ =
      (some none, ⟨[("alice", 0)], [5],
        [Event.sent 5 (Packet.authFail "No auth received"), Event.closedConn 5]⟩)
    ∧ handler (fun _ => false) 5 "t" AuthIn.timeoutErr [] ⟨[("alice", 0)], [], []⟩ =
      (some (), ⟨[("alice", 0)], [5],
        [Event.sent 5 (Packet.authFail "No auth received"), Event.closedConn 5]⟩) :=
  claim9_auth_timeout (fun _ => false) 5 "t" [] ⟨[("alice", 0)], [], []⟩ rfl
    (by decide)

/-- C5 counterexample: a chat packet whose `text` field is a JSON number is
not recoverable: `packet["text"][:MAX_MSG]` raises an uncaught `TypeError`.
The step raises with no reply sent, and the full session run terminates and
deregisters `alice` — contradicting "the session continues ... and the
registry and session state are unchanged". -/
theorem claim5_illtyped_text_cex :
    loopStep (fun _ => false) "alice" 0 "t"
      (Raw.val (JVal.jobj [("type", JVal.jstr "chat"), ("text", JVal.jnum 5)]))
      ⟨[("alice", 0)], [], []⟩ = (none, ⟨[("alice", 0)], [], []⟩)
    ∧ sessionRun (fun _ => false) "alice" 0 "t"
        [Raw.val (JVal.jobj [("type", JVal.jstr "chat"), ("text", JVal.jnum 5)])]
        ⟨[("alice", 0)], [], []⟩ = (none, ⟨[], [], []⟩) :=
  ⟨rfl, rfl⟩

/-- C5 amended: only non-JSON input and JSON *objects* that fail the chat
shape check are recoverable with a `System` reply and unchanged state; a
JSON non-object payload or an ill-typed `text` raises instead (see the
counterexample). -/
theorem claim5_recoverable_errors_amended :
    ∀ (fails : Nat → Bool) (username ts : String) (ws : Nat) (s : St),
    fails ws = false → ws ∉ s.closedConns →
    (loopStep fails username ws ts Raw.notJson s =
      (some (), { s with events := (s.events ++
        [Event.sent ws (Packet.system "Malformed packet (expecting JSON).")]) }))
    ∧ (∀ fields : List (String × JVal),
        oeqStr (jget fields "type") "chat" = false
          ∨ hasField fields "text" = false →
        loopStep fails username ws ts (Raw.val (JVal.jobj fields)) s =
          (some (), { s with events := (s.events ++
            [Event.sent ws (Packet.system "Unknown packet type.")]) })) := by
  intro fails username ts ws s hfw hcw
  exact ⟨loopStep_notJson_run hfw hcw,
         fun fields hbad => loopStep_unknown_run hbad hfw hcw⟩

/-- Witness for the amended C5 at concrete inputs: non-JSON input and a
JSON object with an unrecognized type tag. -/
theorem claim5_recoverable_errors_amended_witness :
    loopStep (fun _ => false) "alice" 0 "t" Raw.notJson ⟨[("alice", 0)], [], []⟩ =
      (some (), ⟨[("alice", 0)], [],
        [Event.sent 0 (Packet.system "Malformed packet (expecting JSON).")]⟩)
    ∧ loopStep (fun _ => false) "alice" 0 "t"
        (Raw.val (JVal.jobj [("type", JVal.jstr "ping")])) ⟨[("alice", 0)], [], []⟩ =
      (some (), ⟨[("alice", 0)], [],
        [Event.sent 0 (Packet.system "Unknown packet type.")]⟩) :=
  ⟨(claim5_recoverable_errors_amended (fun _ => false) "alice" "t" 0
      ⟨[("alice", 0)], [], []⟩ rfl (by decide)).1,
   (claim5_recoverable_errors_amended (fun _ => false) "alice" "t" 0
      ⟨[("alice", 0)], [], []⟩ rfl (by decide)).2
     [("type", JVal.jstr "ping")] (by decide)⟩

/-- C6 counterexample: an `Auth` whose username is the one-space string is
truthy (non-empty before trimming), so it passes validation, and after
`strip()` it registers under the empty-string key — the registry then holds
an entry whose username key is empty. -/
theorem claim6_whitespace_username_cex :
    (authPhase (fun _ => false) 7
      (AuthIn.received (Raw.val (JVal.jobj
        [("type", JVal.jstr "auth"), ("username", JVal.jstr " "),
         ("password", JVal.jstr "letmein")])))
      ⟨[], [], []⟩).2.clients = [("", 7)] := rfl

/-- C6 amended: every entry created by a successful registration is keyed by
the whitespace-trimmed form of the supplied username, and the supplied
username must be non-empty *before* trimming; the key itself may still be
empty (whitespace-only usernames, see the counterexample). -/
theorem claim6_trimmed_username_amended :
    ∀ (fails : Nat → Bool) (ws : Nat) (fields : List (String × JVal))
      (uname : String) (s : St),
    oeqStr (jget fields "type") "auth" = true →
    jget fields "username" = some (JVal.jstr uname) →
    uname ≠ "" →
    jget fields "password" = some (JVal.jstr CHAT_PASSWORD) →
    findHandle (pyStrip uname) s.clients = none →
    fails ws = false → ws ∉ s.closedConns →
    (authPhase fails ws (AuthIn.received (Raw.val (JVal.jobj fields))) s).2.clients
      = s.clients ++ [(pyStrip uname, ws)] := by
  intro fails ws fields uname s ht hu hne hp hfree hfw hcw
  rw [authPhase_success_run ht hu hne hp hfree hfw hcw]

/-- Witness for the amended C6: registering `" bob "` at handle 3 in an
empty registry yields the single entry keyed `bob`. -/
theorem claim6_trimmed_username_amended_witness :
    (authPhase (fun _ => false) 3
      (AuthIn.received (Raw.val (JVal.jobj
        [("type", JVal.jstr "auth"), ("username", JVal.jstr " bob "),
         ("password", JVal.jstr "letmein")])))
      ⟨[], [], []⟩).2.clients = [("bob", 3)] :=
  claim6_trimmed_username_amended (fun _ => false) 3
    [("type", JVal.jstr "auth"), ("username", JVal.jstr " bob "),
     ("password", JVal.jstr "letmein")] " bob " ⟨[], [], []⟩
    rfl rfl (by decide) rfl rfl rfl (by decide)

/-- C7 counterexample: the bare text `/msg` does not satisfy
`l.startswith("/msg ")`, so it is not treated as a command at all: no usage
reply is sent, and the text is broadcast as an ordinary chat message to the
whole registry (here both `alice` and `bob` receive a `chat` packet). -/
theorem claim7_bare_msg_cex :
    handle_command (fun _ => false) "alice" "/msg" 0 "t"
      ⟨[("alice", 0), ("bob", 1)], [], []⟩ =
      (some false, ⟨[("alice", 0), ("bob", 1)], [], []⟩)
    ∧ loopStep (fun _ => false) "alice" 0 "t"
        (Raw.val (JVal.jobj [("type", JVal.jstr "chat"),
                             ("text", JVal.jstr "/msg")]))
        ⟨[("alice", 0), ("bob", 1)], [], []⟩ =
      (some (), ⟨[("alice", 0), ("bob", 1)], [],
        [Event.sent 0 (Packet.chatMsg "alice" "/msg" "t"),
         Event.sent 1 (Packet.chatMsg "alice" "/msg" "t")]⟩) :=
  ⟨rfl, rfl⟩

/-- C7 amended: a chat text whose stripped form starts with the five
characters `/msg ` but splits into fewer than three parts draws exactly one
usage reply to the sender and nothing else; the bare text `/msg` (no
trailing space) is not recognized as a command and falls through to the
ordinary chat broadcast. -/
theorem claim7_msg_usage_amended :
    (∀ (fails : Nat → Bool) (username text ts : String) (ws : Nat) (s : St),
      pyStartsWith (pyStrip text) "/msg " = true →
      (pySplit2 (pyStrip text)).length < 3 →
      fails ws = false → ws ∉ s.closedConns →
      handle_command fails username text ws ts s =
        (some true, { s with events := (s.events ++
          [Event.sent ws (Packet.system "Usage: /msg <user> <message>")]) }))
    ∧ (∀ (fails : Nat → Bool) (username ts : String) (ws : Nat) (s : St),
        handle_command fails username "/msg" ws ts s = (some false, s)) :=
  ⟨fun _ _ _ _ _ _ hsw hlen hfw hcw => handle_command_usage hsw hlen hfw hcw,
   fun fails username ts ws s => handle_command_bare_msg fails username ts ws s⟩

/-- Witness for the amended C7: `/msg bob` (one argument only) draws the
usage reply; bare `/msg` is unhandled. -/
theorem claim7_msg_usage_amended_witness :
    handle_command (fun _ => false) "alice" "/msg bob" 0 "t"
      ⟨[("alice", 0)], [], []⟩ =
      (some true, ⟨[("alice", 0)], [],
        [Event.sent 0 (Packet.system "Usage: /msg <user> <message>")]⟩)
    ∧ handle_command (fun _ => false) "alice" "/msg" 0 "t"
        ⟨[("alice", 0)], [], []⟩ = (some false, ⟨[("alice", 0)], [], []⟩) :=
  ⟨claim7_msg_usage_amended.1 (fun _ => false) "alice" "/msg bob" "t" 0
     ⟨[("alice", 0)], [], []⟩ (by decide) (by decide) rfl (by decide),
   claim7_msg_usage_amended.2 (fun _ => false) "alice" "t" 0
     ⟨[("alice", 0)], [], []⟩⟩

/-- C1: registry keys stay duplicate-free under every sequence of atomic
register/deregister operations, and an authentication attempt whose trimmed
username is already registered fails with `AuthFail` reason
`Username already taken`, closes the connection, and leaves the registry —
hence the original entry — untouched. -/
theorem claim1_registry_uniqueness :
    (∀ (c0 : List (String × Nat)) (ops : List RegOp),
        (keysOf c0).Nodup → (keysOf (applyOps c0 ops)).Nodup)
    ∧ (∀ (fails : Nat → Bool) (ws h0 : Nat) (fields : List (String × JVal))
         (uname : String) (s : St),
        oeqStr (jget fields "type") "auth" = true →
        jget fields "username" = some (JVal.jstr uname) →
        uname ≠ "" →
        jget fields "password" = some (JVal.jstr CHAT_PASSWORD) →
        findHandle (pyStrip uname) s.clients = some h0 →
        fails ws = false → ws ∉ s.closedConns →
        authPhase fails ws (AuthIn.received (Raw.val (JVal.jobj fields))) s =
          (some none,
            { s with closedConns := ws :: s.closedConns,
                     events := (s.events ++
                       [Event.sent ws (Packet.authFail "Username already taken"),
                        Event.closedConn ws]) })) :=
  ⟨fun c0 ops h => applyOps_nodup ops c0 h,
   fun _ _ _ _ _ _ ht hu hne hp htaken hfw hcw =>
     authPhase_taken_run ht hu hne hp htaken hfw hcw⟩

/-- Witness for C1: a concrete operation sequence keeps keys unique, and a
second `alice` registration attempt is rejected with the registry entry
`("alice", 4)` untouched. -/
theorem claim1_registry_uniqueness_witness :
    (keysOf (applyOps [("a", 1)]
      [RegOp.reg "a" 2, RegOp.reg "b" 3, RegOp.dereg "a" 1])).Nodup
    ∧ authPhase (fun _ => false) 9
        (AuthIn.received (Raw.val (JVal.jobj
          [("type", JVal.jstr "auth"), ("username", JVal.jstr "alice"),
           ("password", JVal.jstr "letmein")])))
        ⟨[("alice", 4)], [], []⟩ =
      (some none, ⟨[("alice", 4)], [9],
        [Event.sent 9 (Packet.authFail "Username already taken"),
         Event.closedConn 9]⟩) :=
  ⟨claim1_registry_uniqueness.1 [("a", 1)]
     [RegOp.reg "a" 2, RegOp.reg "b" 3, RegOp.dereg "a" 1] (by decide),
   claim1_registry_uniqueness.2 (fun _ => false) 9 4
     [("type", JVal.jstr "auth"), ("username", JVal.jstr "alice"),
      ("password", JVal.jstr "letmein")] "alice" ⟨[("alice", 4)], [], []⟩
     rfl rfl (by decide) rfl rfl rfl (by decide)⟩

/-- C4: after any inbound chat packet whose (truncated) text is handled as a
command — whatever command, including the usage and not-found error replies,
and whether or not membership changed — the handler broadcasts a fresh users
snapshot of the then-current registry to the whole registry. -/
theorem claim4_users_refresh_after_command :
    ∀ (fails : Nat → Bool) (username ts : String) (ws : Nat)
      (fields : List (String × JVal)) (t : String) (s s' : St),
    oeqStr (jget fields "type") "chat" = true →
    jget fields "text" = some (JVal.jstr t) →
    handle_command fails username (pyTruncate t) ws ts s = (some true, s') →
    loopStep fails username ws ts (Raw.val (JVal.jobj fields)) s =
      (some (), { s' with events := (s'.events ++
        sendsTo fails s'.closedConns none
          (Packet.users (keysOf s'.clients)) s'.clients) }) := by
  intro fails username ts ws fields t s s' htype htext hcmd
  exact loopStep_cmd_run htype htext hcmd

/-- Witness for C4: a `/users` command (which changes no membership) still
triggers the registry-wide users broadcast — `alice` receives the snapshot
twice: once as the direct reply, once from the refresh. -/
theorem claim4_users_refresh_after_command_witness :
    loopStep (fun _ => false) "alice" 0 "t"
      (Raw.val (JVal.jobj [("type", JVal.jstr "chat"),
                           ("text", JVal.jstr "/users")]))
      ⟨[("alice", 0)], [], []⟩ =
      (some (), ⟨[("alice", 0)], [],
        [Event.sent 0 (Packet.users ["alice"]),
         Event.sent 0 (Packet.users ["alice"])]⟩) :=
  claim4_users_refresh_after_command (fun _ => false) "alice" "t" 0
    [("type", JVal.jstr "chat"), ("text", JVal.jstr "/users")] "/users"
    ⟨[("alice", 0)], [], []⟩
    ⟨[("alice", 0)], [], [Event.sent 0 (Packet.users ["alice"])]⟩
    rfl rfl rfl

/-- C3 counterexample: with clients `A`, `B` and `C` registered, `A` sending
`/msg B hello` makes `C` receive a `users` packet (the registry-wide refresh
of C4), so it is false that no client besides `A` and `B` receives any
message as a result of this input; `A` also receives more than just the
acknowledgment. -/
theorem claim3_users_broadcast_leak_cex :
    loopStep (fun _ => false) "A" 0 "t"
      (Raw.val (JVal.jobj [("type", JVal.jstr "chat"),
                           ("text", JVal.jstr "/msg B hello")]))
      ⟨[("A", 0), ("B", 1), ("C", 2)], [], []⟩ =
      (some (), ⟨[("A", 0), ("B", 1), ("C", 2)], [],
        [Event.sent 1 (Packet.privMsg "A" "hello" "t"),
         Event.sent 0 (Packet.system "Private message sent."),
         Event.sent 0 (Packet.users ["A", "B", "C"]),
         Event.sent 1 (Packet.users ["A", "B", "C"]),
         Event.sent 2 (Packet.users ["A", "B", "C"])]⟩)
    ∧ Event.sent 2 (Packet.users ["A", "B", "C"]) ∈
        (loopStep (fun _ => false) "A" 0 "t"
          (Raw.val (JVal.jobj [("type", JVal.jstr "chat"),
                               ("text", JVal.jstr "/msg B hello")]))
          ⟨[("A", 0), ("B", 1), ("C", 2)], [], []⟩).2.events :=
  ⟨rfl, by decide⟩

/-- C3 amended: `/msg B hello` from `A` delivers exactly one `Private` to
`B`'s handle and the acknowledgment to `A`; apart from the users-snapshot
broadcast that follows every handled command (delivered to every registered
client), no client receives anything else. -/
theorem claim3_private_isolation_amended :
    ∀ (fails : Nat → Bool) (A B ts : String) (wsA wsB : Nat) (s : St),
    (∀ c ∈ B.data, c ≠ ' ') →
    findHandle B s.clients = some wsB →
    ("/msg " ++ B ++ " hello").data.length ≤ MAX_MSG →
    fails wsA = false → fails wsB = false →
    (∀ p ∈ s.clients, fails p.2 = false) →
    s.closedConns = [] →
    loopStep fails A wsA ts
      (Raw.val (JVal.jobj [("type", JVal.jstr "chat"),
                           ("text", JVal.jstr ("/msg " ++ B ++ " hello"))])) s =
      (some (), { s with events := (s.events ++
        [Event.sent wsB (Packet.privMsg A "hello" ts),
         Event.sent wsA (Packet.system "Private message sent.")] ++
        s.clients.map (fun p =>
          Event.sent p.2 (Packet.users (keysOf s.clients)))) }) := by
  intro fails A B ts wsA wsB s hB hfind hlen hfwA hfwB hall hcl
  have hcwA : wsA ∉ s.closedConns := by
    rw [hcl]
    exact List.not_mem_nil wsA
  have hcwB : wsB ∉ s.closedConns := by
    rw [hcl]
    exact List.not_mem_nil wsB
  have htr : pyTruncate ("/msg " ++ B ++ " hello") = "/msg " ++ B ++ " hello" :=
    pyTruncate_of_le hlen
  have hcmd : handle_command fails A (pyTruncate ("/msg " ++ B ++ " hello"))
      wsA ts s =
      (some true, { s with events := (s.events ++
        [Event.sent wsB (Packet.privMsg A "hello" ts),
         Event.sent wsA (Packet.system "Private message sent.")]) }) := by
    rw [htr]
    exact handle_command_privmsg hB hfind hfwB hcwB hfwA hcwA
  have htype : oeqStr (jget [("type", JVal.jstr "chat"),
      ("text", JVal.jstr ("/msg " ++ B ++ " hello"))] "type") "chat" = true := rfl
  have htext : jget [("type", JVal.jstr "chat"),
      ("text", JVal.jstr ("/msg " ++ B ++ " hello"))] "text" =
      some (JVal.jstr ("/msg " ++ B ++ " hello")) := rfl
  rw [loopStep_cmd_run htype htext hcmd]
  have hmap : sendsTo fails s.closedConns none
      (Packet.users (keysOf s.clients)) s.clients
      = s.clients.map (fun p => Event.sent p.2 (Packet.users (keysOf s.clients))) :=
    sendsTo_to_map hall (by
      intro p hp
      rw [hcl]
      exact List.not_mem_nil p.2)
  simp [hmap, List.append_assoc]

/-- Witness for the amended C3 at a concrete three-client registry. -/
theorem claim3_private_isolation_amended_witness :
    loopStep (fun _ => false) "A" 0 "t"
      (Raw.val (JVal.jobj [("type", JVal.jstr "chat"),
                           ("text", JVal.jstr ("/msg " ++ "B" ++ " hello"))]))
      ⟨[("A", 0), ("B", 1), ("C", 2)], [], []⟩ =
      (some (), ⟨[("A", 0), ("B", 1), ("C", 2)], [],
        [Event.sent 1 (Packet.privMsg "A" "hello" "t"),
         Event.sent 0 (Packet.system "Private message sent."),
         Event.sent 0 (Packet.users ["A", "B", "C"]),
         Event.sent 1 (Packet.users ["A", "B", "C"]),
         Event.sent 2 (Packet.users ["A", "B", "C"])]⟩) := by
  have h := claim3_private_isolation_amended (fun _ => false) "A" "B" "t" 0 1
    ⟨[("A", 0), ("B", 1), ("C", 2)], [], []⟩
    (by decide) rfl (by decide) rfl rfl (by decide) rfl
  simpa using h

/-- C8: a successful authentication emits, in order: `auth_ok` to the
joiner, then the `system` join notice to every previously registered
client (the joiner excluded), then the updated users snapshot — whose list
ends with the joiner's username — to every previously registered client
and finally to the joiner as well. -/
theorem claim8_join_notification_order :
    ∀ (fails : Nat → Bool) (ws : Nat) (fields : List (String × JVal))
      (uname : String) (s : St),
    oeqStr (jget fields "type") "auth" = true →
    jget fields "username" = some (JVal.jstr uname) →
    uname ≠ "" →
    jget fields "password" = some (JVal.jstr CHAT_PASSWORD) →
    findHandle (pyStrip uname) s.clients = none →
    fails ws = false →
    (∀ p ∈ s.clients, fails p.2 = false) →
    s.closedConns = [] →
    authPhase fails ws (AuthIn.received (Raw.val (JVal.jobj fields))) s =
      (some (some (pyStrip uname)),
        { clients := s.clients ++ [(pyStrip uname, ws)],
          closedConns := s.closedConns,
          events := (s.events
            ++ [Event.sent ws Packet.authOk]
            ++ s.clients.map (fun p => Event.sent p.2
                 (Packet.system ("*** " ++ pyStrip uname ++ " joined the chat ***")))
            ++ (s.clients.map (fun p => Event.sent p.2
                  (Packet.users (keysOf s.clients ++ [pyStrip uname])))
                ++ [Event.sent ws
                     (Packet.users (keysOf s.clients ++ [pyStrip uname]))])) })
    ∧ pyStrip uname ∈ keysOf s.clients ++ [pyStrip uname] := by
  intro fails ws fields uname s ht hu hne hp hfree hfw hall hcl
  have hcw : ws ∉ s.closedConns := by
    rw [hcl]
    exact List.not_mem_nil ws
  refine ⟨?_, List.mem_append_right _ (List.mem_singleton_self _)⟩
  rw [authPhase_success_run ht hu hne hp hfree hfw hcw]
  have hnotin : ∀ p ∈ s.clients, p.1 ≠ pyStrip uname := findHandle_eq_none.mp hfree
  have hfall : ∀ p ∈ s.clients ++ [(pyStrip uname, ws)], fails p.2 = false := by
    intro p hp
    rcases List.mem_append.mp hp with h1 | h1
    · exact hall p h1
    · rw [List.mem_singleton.mp h1]
      exact hfw
  have hcall : ∀ p ∈ s.clients ++ [(pyStrip uname, ws)],
      p.2 ∉ s.closedConns := by
    intro p hp
    rw [hcl]
    exact List.not_mem_nil p.2
  have hjoin : sendsTo fails s.closedConns (some (pyStrip uname))
      (Packet.system ("*** " ++ pyStrip uname ++ " joined the chat ***"))
      (s.clients ++ [(pyStrip uname, ws)]) =
      s.clients.map (fun p => Event.sent p.2
        (Packet.system ("*** " ++ pyStrip uname ++ " joined the chat ***"))) := by
    rw [sendsTo_excl_map hfall hcall]
    congr 1
    rw [List.filter_append]
    have h1 : s.clients.filter (fun p => decide (p.1 ≠ pyStrip uname)) = s.clients :=
      List.filter_eq_self.mpr (fun p hp => by simp [hnotin p hp])
    have h2 : ([(pyStrip uname, ws)] : List (String × Nat)).filter
        (fun p => decide (p.1 ≠ pyStrip uname)) = [] := by
      simp
    rw [h1, h2, List.append_nil]
  have husers : sendsTo fails s.closedConns none
      (Packet.users (keysOf (s.clients ++ [(pyStrip uname, ws)])))
      (s.clients ++ [(pyStrip uname, ws)]) =
      s.clients.map (fun p => Event.sent p.2
        (Packet.users (keysOf s.clients ++ [pyStrip uname])))
        ++ [Event.sent ws (Packet.users (keysOf s.clients ++ [pyStrip uname]))] := by
    rw [sendsTo_to_map hfall hcall, keysOf_append]
    simp [keysOf]
  rw [hjoin, husers]

/-- Witness for C8: `bob` joins a room where `alice` is registered. -/
theorem claim8_join_notification_order_witness :
    authPhase (fun _ => false) 9
      (AuthIn.received (Raw.val (JVal.jobj
        [("type", JVal.jstr "auth"), ("username", JVal.jstr "bob"),
         ("password", JVal.jstr "letmein")])))
      ⟨[("alice", 0)], [], []⟩ =
      (some (some "bob"),
        ⟨[("alice", 0), ("bob", 9)], [],
         [Event.sent 9 Packet.authOk,
          Event.sent 0 (Packet.system "*** bob joined the chat ***"),
          Event.sent 0 (Packet.users ["alice", "bob"]),
          Event.sent 9 (Packet.users ["alice", "bob"])]⟩)
    ∧ "bob" ∈ (["alice"] ++ ["bob"] : List String) := by
  have h := claim8_join_notification_order (fun _ => false) 9
    [("type", JVal.jstr "auth"), ("username", JVal.jstr "bob"),
     ("password", JVal.jstr "letmein")] "bob" ⟨[("alice", 0)], [], []⟩
    rfl rfl (by decide) rfl rfl rfl (by decide) rfl
  simpa using h

/-- C10: on `/quit` the server first sends `Goodbye.` to the quitting user
and closes that socket, then — still inside the command pass — broadcasts a
users snapshot that still lists the quitting user (delivered to every other
registered client; the quitter's socket is already closed), and only the
teardown pass afterwards deregisters the user, sends the leave notice and
the corrected users snapshot. Every remaining client therefore sees a users
list containing the departed user before seeing the leave notice. -/
theorem claim10_quit_stale_users :
    ∀ (fails : Nat → Bool) (username ts : String) (ws : Nat) (s : St),
    findHandle username s.clients = some ws →
    (∀ p ∈ s.clients, fails p.2 = false) →
    (∀ p ∈ s.clients, p.2 = ws → p.1 = username) →
    s.closedConns = [] →
    sessionRun fails username ws ts
      [Raw.val (JVal.jobj [("type", JVal.jstr "chat"),
                           ("text", JVal.jstr "/quit")])] s =
      (some (),
        { clients := s.clients.filter (fun p => decide (p.1 ≠ username)),
          closedConns := [ws],
          events := (s.events
            ++ [Event.sent ws (Packet.system "Goodbye."), Event.closedConn ws]
            ++ (s.clients.filter (fun p => decide (p.2 ≠ ws))).map
                 (fun p => Event.sent p.2 (Packet.users (keysOf s.clients)))
            ++ (s.clients.filter (fun p => decide (p.1 ≠ username))).map
                 (fun p => Event.sent p.2
                   (Packet.system ("*** " ++ username ++ " left the chat ***")))
            ++ (s.clients.filter (fun p => decide (p.1 ≠ username))).map
                 (fun p => Event.sent p.2
                   (Packet.users (keysOf (s.clients.filter
                     (fun p => decide (p.1 ≠ username))))))) })
    ∧ username ∈ keysOf s.clients
    ∧ username ∉ keysOf (s.clients.filter (fun p => decide (p.1 ≠ username))) := by
  intro fails username ts ws s hfind hall huniq hcl
  have hmem : (username, ws) ∈ s.clients := findHandle_mem hfind
  have hfw : fails ws = false := hall _ hmem
  have hcw : ws ∉ s.closedConns := by
    rw [hcl]
    exact List.not_mem_nil ws
  refine ⟨?_, List.mem_map.mpr ⟨(username, ws), hmem, rfl⟩, ?_⟩
  · have hq := @handle_command_quit fails username ts ws s hfw hcw
    have htype : oeqStr (jget [("type", JVal.jstr "chat"),
        ("text", JVal.jstr "/quit")] "type") "chat" = true := rfl
    have htext : jget [("type", JVal.jstr "chat"),
        ("text", JVal.jstr "/quit")] "text" = some (JVal.jstr "/quit") := rfl
    have hstep := loopStep_cmd_run htype htext hq
    have hloop := sessionLoop_one_closed hstep
      (List.mem_cons_self ws s.closedConns) []
    have hfinal := sessionRun_of hloop (teardown_run fails username ws _)
    rw [hfinal]
    have hder : deregisterClient s.clients username ws =
        s.clients.filter (fun p => decide (p.1 ≠ username)) := by
      rw [deregisterClient, if_pos hfind]
    have hallc2 : ∀ p ∈ s.clients.filter (fun p => decide (p.1 ≠ username)),
        fails p.2 = false :=
      fun p hp => hall p (List.mem_of_mem_filter hp)
    have hc2 : ∀ p ∈ s.clients.filter (fun p => decide (p.1 ≠ username)),
        p.2 ∉ [ws] := by
      intro p hp hmem1
      have h1 := List.mem_filter.mp hp
      have h2 : p.2 = ws := List.mem_singleton.mp hmem1
      have h3 : p.1 = username := huniq p h1.1 h2
      have h4 : p.1 ≠ username := by simpa using h1.2
      exact h4 h3
    have hfirst : sendsTo fails [ws] none (Packet.users (keysOf s.clients))
        s.clients =
        (s.clients.filter (fun p => decide (p.2 ≠ ws))).map
          (fun p => Event.sent p.2 (Packet.users (keysOf s.clients))) :=
      sendsTo_closed_filter hall
    have hleft : sendsTo fails [ws] none
        (Packet.system ("*** " ++ username ++ " left the chat ***"))
        (s.clients.filter (fun p => decide (p.1 ≠ username))) =
        (s.clients.filter (fun p => decide (p.1 ≠ username))).map
          (fun p => Event.sent p.2
            (Packet.system ("*** " ++ username ++ " left the chat ***"))) :=
      sendsTo_to_map hallc2 hc2
    have husers2 : sendsTo fails [ws] none
        (Packet.users (keysOf (s.clients.filter
          (fun p => decide (p.1 ≠ username)))))
        (s.clients.filter (fun p => decide (p.1 ≠ username))) =
        (s.clients.filter (fun p => decide (p.1 ≠ username))).map
          (fun p => Event.sent p.2
            (Packet.users (keysOf (s.clients.filter
              (fun p => decide (p.1 ≠ username)))))) :=
      sendsTo_to_map hallc2 hc2
    simp only [decide_not] at hfirst hleft husers2 hder
    simp [hcl, hder, hfirst, hleft, husers2, List.append_assoc]
  · intro hbad
    obtain ⟨p, hp, hpeq⟩ := List.mem_map.mp hbad
    have h1 := List.mem_filter.mp hp
    have h4 : p.1 ≠ username := by simpa using h1.2
    exact h4 hpeq

/-- Witness for C10: `alice` quits a room shared with `bob`; `bob` first
receives the stale `["alice", "bob"]` snapshot, then the leave notice, then
the corrected `["bob"]` snapshot. -/
theorem claim10_quit_stale_users_witness :
    sessionRun (fun _ => false) "alice" 0 "t"
      [Raw.val (JVal.jobj [("type", JVal.jstr "chat"),
                           ("text", JVal.jstr "/quit")])]
      ⟨[("alice", 0), ("bob", 1)], [], []⟩ =
      (some (), ⟨[("bob", 1)], [0],
        [Event.sent 0 (Packet.system "Goodbye."),
         Event.closedConn 0,
         Event.sent 1 (Packet.users ["alice", "bob"]),
         Event.sent 1 (Packet.system "*** alice left the chat ***"),
         Event.sent 1 (Packet.users ["bob"])]⟩)
    ∧ "alice" ∈ keysOf [("alice", 0), ("bob", 1)]
    ∧ "alice" ∉ keysOf [("bob", 1)] := by
  have h := claim10_quit_stale_users (fun _ => false) "alice" "t" 0
    ⟨[("alice", 0), ("bob", 1)], [], []⟩ rfl (by decide) (by decide) rfl
  simpa using h
